import Mathlib

/-!
Verification of the content-management backend (Django/DRF app `api`):
models.py (Resource, ResourceImage, upload-path helpers), serializers.py
(ResourceSerializer, ResourceImageSerializer with the tag codec), views.py
(the CRUD and image-upload views) and the media settings from settings.py.

Python strings are embedded as `List Char`; the Python string operations the
code uses (`str.strip`, `str.split(',')`, `','.join`) are defined below and
the record/HTTP layer is embedded as explicit state passing over a `DB`
value.  Time is a `Nat` parameter standing for the current clock reading
(`auto_now` / `auto_now_add` store it), and fresh primary keys are passed in
explicitly.
-/

namespace Cms

/-! ### Python string primitives -/

/-- Python string as a list of characters. -/
abbrev PyStr := List Char

/-- The characters Python's default `str.strip()` removes
(space, tab, newline, vertical tab, form feed, carriage return). -/
def isPySpace (c : Char) : Bool :=
  c = ' ' || c = '\t' || c = '\n' || c = '\x0b' || c = '\x0c' || c = '\r'

/-- Drop leading whitespace (Python `str.lstrip()`). -/
def lstripPy : PyStr → PyStr
  | [] => []
  | c :: cs => if isPySpace c then lstripPy cs else c :: cs

/-- Drop trailing whitespace (Python `str.rstrip()`). -/
def rstripPy (s : PyStr) : PyStr := (lstripPy s.reverse).reverse

/-- Python `str.strip()`: drop leading and trailing whitespace. -/
def stripPy (s : PyStr) : PyStr := rstripPy (lstripPy s)

/-- Python `s.split(',')`: the empty string yields `[""]`, and in general the
result has one segment per comma plus one. -/
def pySplit : PyStr → List PyStr
  | [] => [[]]
  | c :: cs =>
    if c = ',' then [] :: pySplit cs
    else
      match pySplit cs with
      | [] => [[c]]
      | t :: ts => (c :: t) :: ts

/-- Python `','.join(xs)`. -/
def joinComma : List PyStr → PyStr
  | [] => []
  | [x] => x
  | x :: y :: ys => x ++ ',' :: joinComma (y :: ys)

/-! ### Tag codec (models.py `Resource.get_tags_list`, serializers.py tag
normalization in `ResourceSerializer.create` / `update`) -/

/-- models.py `Resource.get_tags_list`:
`if not self.tags: return []` then
`[tag.strip() for tag in self.tags.split(',')]`. -/
def get_tags_list (tags : PyStr) : List PyStr :=
  if tags = [] then [] else (pySplit tags).map stripPy

/-- serializers.py, the tag handling shared by `ResourceSerializer.create`
and `ResourceSerializer.update`:
`tags_list = [tag.strip() for tag in validated_data['tags'].split(',') if tag.strip()]`
followed by `','.join(tags_list)`. -/
def normalizeTags (raw : PyStr) : PyStr :=
  joinComma (((pySplit raw).map stripPy).filter (fun t => t ≠ []))

/-! ### Data model (models.py) -/

/-- A persisted `Resource` row.  `created_at` / `updated_at` are the clock
readings stored by `auto_now_add` / `auto_now`. -/
structure ResourceRec where
  id : Nat
  title : String
  description : Option String
  resource_file : Option String
  tags : PyStr
  created_at : Nat
  updated_at : Nat
deriving DecidableEq, Repr

/-- A persisted `ResourceImage` row.  `image` is the stored file name
(the `upload_to` path). -/
structure ImageRec where
  id : Nat
  resource : Nat
  image : String
  caption : String
  uploaded_at : Nat
deriving DecidableEq, Repr

/-- The backing store: the two tables plus the set of blob files present in
media storage (as a list of stored paths). -/
structure DB where
  resources : List ResourceRec
  images : List ImageRec
  blobs : List String
deriving DecidableEq, Repr

/-- models.py `resource_file_path`: `resources/<id>/files/<filename>`. -/
def resource_file_path (rid : Nat) (filename : String) : String :=
  "resources/" ++ toString rid ++ "/files/" ++ filename

/-- models.py `resource_image_path`: `resources/<resource id>/images/<filename>`. -/
def resource_image_path (rid : Nat) (filename : String) : String :=
  "resources/" ++ toString rid ++ "/images/" ++ filename

/-- `get_object_or_404(Resource, pk=pk)` as a lookup returning `none` for the
404 case. -/
def lookupResource (db : DB) (pk : Nat) : Option ResourceRec :=
  db.resources.find? (fun r => r.id = pk)

/-- `get_object_or_404(ResourceImage, pk=pk)` as a lookup. -/
def lookupImage (db : DB) (pk : Nat) : Option ImageRec :=
  db.images.find? (fun i => i.id = pk)

/-! ### Serializer input and validation (serializers.py `ResourceSerializer`) -/

/-- The writable fields of a resource request body.  `none` means the field
is absent from the request; for `description` a supplied value may itself be
JSON `null` (the model field is `null=True`), hence the nested `Option`. -/
structure ResourceInput where
  title : Option String
  description : Option (Option String)
  resource_file : Option String
  tags : Option PyStr
deriving DecidableEq, Repr

/-- DRF validation induced by the model declarations: `title` is the only
required writable field (`description`, `resource_file` are `blank`/`null`,
`tags` is `blank=True`), and a supplied title must not be blank.  With
`partial=True` (the `isPatch` flag) even `title` may be absent. -/
def validateResource (isPatch : Bool) (inp : ResourceInput) : Bool :=
  (isPatch || inp.title.isSome) &&
    (match inp.title with
     | some t => t ≠ ""
     | none => true)

/-- serializers.py `ResourceSerializer.create` (plus the model save that
fills `auto_now_add` / `auto_now` fields): tags, when supplied, are
normalized; absent optional fields take the model defaults
(`description = None`, no file, `tags = ''`). -/
def serializerCreate (inp : ResourceInput) (newId now : Nat) : ResourceRec :=
  { id := newId
    title := inp.title.getD ""
    description := (inp.description.getD none)
    resource_file := inp.resource_file
    tags :=
      match inp.tags with
      | none => []
      | some raw => normalizeTags raw
    created_at := now
    updated_at := now }

/-- serializers.py `ResourceSerializer.update`: `setattr` on exactly the
supplied fields (tags normalized when supplied), then save, which refreshes
`updated_at` (`auto_now`) and leaves `created_at` alone. -/
def serializerUpdate (r : ResourceRec) (inp : ResourceInput) (now : Nat) : ResourceRec :=
  { r with
    title := inp.title.getD r.title
    description := inp.description.getD r.description
    resource_file :=
      match inp.resource_file with
      | none => r.resource_file
      | some f => some f
    tags :=
      match inp.tags with
      | none => r.tags
      | some raw => normalizeTags raw
    updated_at := now }

/-- Blob writes a resource save performs: storing an uploaded file puts it
under `resource_file_path`. -/
def blobsAfterFileWrite (blobs : List String) (rid : Nat) (file : Option String) :
    List String :=
  match file with
  | none => blobs
  | some f => blobs ++ [resource_file_path rid f]

/-! ### HTTP views (views.py) -/

/-- Result of a request: the new store, the HTTP status, and the response
body when it is a serialized resource. -/
structure ResourceResponse where
  db : DB
  status : Nat
  body : Option ResourceRec
deriving DecidableEq, Repr

/-- Insert a row into a list already ordered by descending `created_at`. -/
def insertByCreated (r : ResourceRec) : List ResourceRec → List ResourceRec
  | [] => [r]
  | x :: xs =>
    if x.created_at < r.created_at then r :: x :: xs
    else x :: insertByCreated r xs

/-- views.py `ResourceListCreateView.get`:
`Resource.objects.all().order_by('-created_at')`, newest first. -/
def listResourcesView (db : DB) : List ResourceRec :=
  db.resources.foldr insertByCreated []

/-- views.py `ResourceListCreateView.post`: validate, save, 201; otherwise
400 with no object in the body. -/
def postResourceView (db : DB) (inp : ResourceInput) (newId now : Nat) :
    ResourceResponse :=
  if validateResource false inp then
    let r := serializerCreate inp newId now
    { db := { db with
              resources := db.resources ++ [r]
              blobs := blobsAfterFileWrite db.blobs newId inp.resource_file }
      status := 201
      body := some r }
  else
    { db := db, status := 400, body := none }

/-- views.py `ResourceDetailView.get`: 404 when the pk is absent, else 200
with the serialized resource. -/
def getResourceView (db : DB) (pk : Nat) : ResourceResponse :=
  match lookupResource db pk with
  | none => { db := db, status := 404, body := none }
  | some r => { db := db, status := 200, body := some r }

/-- Replace the stored row whose id matches the saved record. -/
def saveResource (db : DB) (r : ResourceRec) : DB :=
  { db with resources := db.resources.map (fun x => if x.id = r.id then r else x) }

/-- views.py `ResourceDetailView.put` (`partial` not set, i.e. `False`). -/
def putResourceView (db : DB) (pk : Nat) (inp : ResourceInput) (now : Nat) :
    ResourceResponse :=
  match lookupResource db pk with
  | none => { db := db, status := 404, body := none }
  | some r =>
    if validateResource false inp then
      let r' := serializerUpdate r inp now
      { db := { saveResource db r' with
                blobs := blobsAfterFileWrite db.blobs pk inp.resource_file }
        status := 200
        body := some r' }
    else
      { db := db, status := 400, body := none }

/-- views.py `ResourceDetailView.patch` (`partial=True`). -/
def patchResourceView (db : DB) (pk : Nat) (inp : ResourceInput) (now : Nat) :
    ResourceResponse :=
  match lookupResource db pk with
  | none => { db := db, status := 404, body := none }
  | some r =>
    if validateResource true inp then
      let r' := serializerUpdate r inp now
      { db := { saveResource db r' with
                blobs := blobsAfterFileWrite db.blobs pk inp.resource_file }
        status := 200
        body := some r' }
    else
      { db := db, status := 400, body := none }

/-- views.py `ResourceDetailView.delete`: `resource.delete()` removes the row
and, through `on_delete=CASCADE`, every `ResourceImage` row whose foreign key
points at it.  Deleting model rows does not remove stored files, so `blobs`
is untouched. -/
def deleteResourceView (db : DB) (pk : Nat) : DB × Nat :=
  match lookupResource db pk with
  | none => (db, 404)
  | some _ =>
    ({ db with
       resources := db.resources.filter (fun r => r.id ≠ pk)
       images := db.images.filter (fun i => i.resource ≠ pk) }, 204)

/-- Result of an image request. -/
structure ImageResponse where
  db : DB
  status : Nat
  body : Option ImageRec
deriving DecidableEq, Repr

/-- views.py `ResourceImageUploadView.post`: `get_object_or_404` on the path
pk first (404 regardless of payload), then the `'image' not in request.FILES`
check (400), then `ResourceImage(resource=resource, image=..., caption=
request.data.get('caption', ''))` and save (201).  The request body's
`resource` field (`payloadResource`) is never read: the serializer declares
it read-only and the view takes the owner from the URL path. -/
def uploadImageView (db : DB) (resource_pk : Nat) (imageFile : Option String)
    (caption : Option String) (payloadResource : Option Nat) (newId now : Nat) :
    ImageResponse :=
  match lookupResource db resource_pk with
  | none => { db := db, status := 404, body := none }
  | some _ =>
    match imageFile with
    | none => { db := db, status := 400, body := none }
    | some f =>
      let img : ImageRec :=
        { id := newId
          resource := resource_pk
          image := resource_image_path resource_pk f
          caption := caption.getD ""
          uploaded_at := now }
      { db := { db with
                images := db.images ++ [img]
                blobs := db.blobs ++ [resource_image_path resource_pk f] }
        status := 201
        body := some img }

/-- views.py `ResourceImageDetailView.delete`: 404 when absent, else remove
the row (204).  The blob is not removed. -/
def deleteImageView (db : DB) (pk : Nat) : DB × Nat :=
  match lookupImage db pk with
  | none => (db, 404)
  | some _ =>
    ({ db with images := db.images.filter (fun i => i.id ≠ pk) }, 204)

/-! ### Presentation layer URL fields (serializers.py, settings.py) -/

/-- settings.py `MEDIA_URL`. -/
def MEDIA_URL : String := "/media/"

/-- `request.build_absolute_uri(url)`: the request's base joined with the
site-relative url. -/
def build_absolute_uri (base url : String) : String := base ++ url

/-- serializers.py `ResourceImageSerializer.get_image_url`:
`request = self.context.get('request')`, then
`if obj.image and request: return request.build_absolute_uri(obj.image.url)`
else `None`; `obj.image.url` is `MEDIA_URL` followed by the stored name. -/
def get_image_url (image : Option String) (request : Option String) :
    Option String :=
  match image, request with
  | some name, some base => some (build_absolute_uri base (MEDIA_URL ++ name))
  | _, _ => none

/-- serializers.py `ResourceSerializer.get_resource_file_url`, same shape as
`get_image_url` but over `obj.resource_file`. -/
def get_resource_file_url (resource_file : Option String) (request : Option String) :
    Option String :=
  match resource_file, request with
  | some name, some base => some (build_absolute_uri base (MEDIA_URL ++ name))
  | _, _ => none

end Cms

namespace Cms

/-! ### Lemmas about the Python string primitives -/

theorem lstripPy_idem (s : PyStr) : lstripPy (lstripPy s) = lstripPy s := by
  induction s with
  | nil => rfl
  | cons c cs ih =>
    by_cases h : isPySpace c
    · simp only [lstripPy, h, if_true]
      exact ih
    · simp [lstripPy, h]

theorem lstripPy_suffix (s : PyStr) : lstripPy s <:+ s := by
  induction s with
  | nil => simp [lstripPy]
  | cons c cs ih =>
    by_cases h : isPySpace c
    · simp only [lstripPy, h, if_true]
      exact ih.trans (List.suffix_cons c cs)
    · simp [lstripPy, h]

theorem lstripPy_head (s : PyStr) (c : Char) (cs : PyStr)
    (h : lstripPy s = c :: cs) : isPySpace c = false := by
  induction s with
  | nil => simp [lstripPy] at h
  | cons d ds ih =>
    by_cases hd : isPySpace d
    · exact ih (by simpa [lstripPy, hd] using h)
    · simp only [lstripPy, hd, if_false] at h
      injection h with h1 h2
      subst h1
      simpa using hd

theorem rstripPy_idem (s : PyStr) : rstripPy (rstripPy s) = rstripPy s := by
  unfold rstripPy
  rw [List.reverse_reverse, lstripPy_idem]

theorem rstripPy_isPre (s : PyStr) : rstripPy s <+: s := by
  unfold rstripPy
  obtain ⟨t, ht⟩ := lstripPy_suffix s.reverse
  refine ⟨t.reverse, ?_⟩
  have h2 := congrArg List.reverse ht
  simpa using h2

theorem stripPy_idem (s : PyStr) : stripPy (stripPy s) = stripPy s := by
  unfold stripPy
  have h1 : lstripPy (rstripPy (lstripPy s)) = rstripPy (lstripPy s) := by
    cases hr : rstripPy (lstripPy s) with
    | nil => rfl
    | cons c cs =>
      have hpre : rstripPy (lstripPy s) <+: lstripPy s := rstripPy_isPre _
      rw [hr] at hpre
      obtain ⟨rest, hrest⟩ := hpre
      have hc : isPySpace c = false := by
        apply lstripPy_head s c (cs ++ rest)
        exact hrest.symm
      simp [lstripPy, hc]
  rw [h1, rstripPy_idem]

theorem stripPy_sub (s : PyStr) : (stripPy s).Sublist s := by
  unfold stripPy
  exact ((rstripPy_isPre (lstripPy s)).sublist).trans (lstripPy_suffix s).sublist

theorem mem_of_mem_stripPy {c : Char} {s : PyStr} (h : c ∈ stripPy s) : c ∈ s :=
  (stripPy_sub s).subset h

theorem pySplit_ne_nil (s : PyStr) : pySplit s ≠ [] := by
  induction s with
  | nil => simp [pySplit]
  | cons c cs ih =>
    by_cases h : c = ','
    · simp [pySplit, h]
    · cases hsp : pySplit cs with
      | nil => exact absurd hsp ih
      | cons t ts => simp [pySplit, h, hsp]

theorem not_comma_mem_pySplit (s : PyStr) : ∀ x ∈ pySplit s, ',' ∉ x := by
  induction s with
  | nil =>
    intro x hx
    simp [pySplit] at hx
    subst hx
    simp
  | cons c cs ih =>
    intro x hx
    by_cases h : c = ','
    · subst h
      simp only [pySplit, if_pos rfl] at hx
      rcases List.mem_cons.mp hx with h1 | h2
      · subst h1; simp
      · exact ih x h2
    · cases hsp : pySplit cs with
      | nil => exact absurd hsp (pySplit_ne_nil cs)
      | cons t ts =>
        simp only [pySplit, h, if_false, hsp] at hx
        rcases List.mem_cons.mp hx with h1 | h2
        · subst h1
          intro hmem
          rcases List.mem_cons.mp hmem with h3 | h4
          · exact h h3.symm
          · exact ih t (by rw [hsp]; exact List.mem_cons_self t ts) h4
        · exact ih x (by rw [hsp]; exact List.mem_cons_of_mem t h2)

theorem pySplit_no_comma (x : PyStr) (h : ',' ∉ x) : pySplit x = [x] := by
  induction x with
  | nil => rfl
  | cons c cs ih =>
    have hc : ¬ c = ',' := by
      intro hc
      subst hc
      exact h (List.mem_cons_self _ _)
    have hcs : ',' ∉ cs := fun hm => h (List.mem_cons_of_mem c hm)
    simp [pySplit, hc, ih hcs]

theorem pySplit_append (x rest : PyStr) (h : ',' ∉ x) :
    pySplit (x ++ ',' :: rest) = x :: pySplit rest := by
  induction x with
  | nil => simp [pySplit]
  | cons c cs ih =>
    have hc : ¬ c = ',' := by
      intro hc
      subst hc
      exact h (List.mem_cons_self _ _)
    have hcs : ',' ∉ cs := fun hm => h (List.mem_cons_of_mem c hm)
    simp [pySplit, hc, ih hcs]

theorem joinComma_ne_nil (L : List PyStr) (hne : L ≠ []) (h : ∀ x ∈ L, x ≠ []) :
    joinComma L ≠ [] := by
  cases L with
  | nil => exact absurd rfl hne
  | cons x xs =>
    cases xs with
    | nil => simpa [joinComma] using h x (by simp)
    | cons y ys => simp [joinComma]

theorem pySplit_joinComma (L : List PyStr) (h : ∀ x ∈ L, ',' ∉ x) (hne : L ≠ []) :
    pySplit (joinComma L) = L := by
  induction L with
  | nil => exact absurd rfl hne
  | cons x xs ih =>
    cases xs with
    | nil => simp [joinComma, pySplit_no_comma x (h x (by simp))]
    | cons y ys =>
      rw [show joinComma (x :: y :: ys) = x ++ ',' :: joinComma (y :: ys) from rfl,
          pySplit_append x _ (h x (by simp)),
          ih (fun z hz => h z (List.mem_cons_of_mem x hz)) (by simp)]

theorem pySplit_length (s : PyStr) : (pySplit s).length = s.count ',' + 1 := by
  induction s with
  | nil => simp [pySplit]
  | cons c cs ih =>
    by_cases h : c = ','
    · subst h
      simp [pySplit, ih, List.count_cons]
    · cases hsp : pySplit cs with
      | nil => exact absurd hsp (pySplit_ne_nil cs)
      | cons t ts =>
        rw [hsp] at ih
        simp only [pySplit, h, if_false, hsp, List.length_cons, List.count_cons]
        simp only [List.length_cons] at ih
        simp [h, ih]

/-! ### Core codec facts -/

theorem decode_normalize (raw : PyStr) :
    get_tags_list (normalizeTags raw) = (get_tags_list raw).filter (fun t => t ≠ []) := by
  by_cases hraw : raw = []
  · subst hraw; decide
  · have hR : (get_tags_list raw).filter (fun t => t ≠ []) =
        ((pySplit raw).map stripPy).filter (fun t => t ≠ []) := by
      rw [get_tags_list, if_neg hraw]
    rw [hR, normalizeTags]
    generalize hL : ((pySplit raw).map stripPy).filter (fun t => t ≠ []) = L
    have hmem : ∀ x ∈ L, x ≠ [] ∧ stripPy x = x ∧ ',' ∉ x := by
      intro x hx
      rw [← hL, List.mem_filter] at hx
      obtain ⟨hx1, hne⟩ := hx
      obtain ⟨y, hy, hxy⟩ := List.mem_map.mp hx1
      refine ⟨by simpa using hne, by rw [← hxy]; exact stripPy_idem y, ?_⟩
      intro hc
      exact not_comma_mem_pySplit raw y hy (mem_of_mem_stripPy (hxy ▸ hc))
    cases L with
    | nil => rfl
    | cons t ts =>
      have hjoin_ne : joinComma (t :: ts) ≠ [] :=
        joinComma_ne_nil _ (by simp) (fun x hx => (hmem x hx).1)
      rw [get_tags_list, if_neg hjoin_ne,
          pySplit_joinComma _ (fun x hx => (hmem x hx).2.2) (by simp)]
      have hmap : List.map stripPy (t :: ts) = List.map id (t :: ts) :=
        List.map_congr_left (fun a ha => (hmem a ha).2.1)
      rw [hmap, List.map_id]

theorem normalizeTags_fixed (L : List PyStr)
    (hmem : ∀ x ∈ L, x ≠ [] ∧ stripPy x = x ∧ ',' ∉ x) :
    normalizeTags (joinComma L) = joinComma L := by
  cases L with
  | nil => rfl
  | cons t ts =>
    rw [normalizeTags,
        pySplit_joinComma _ (fun x hx => (hmem x hx).2.2) (by simp)]
    have hmap : List.map stripPy (t :: ts) = List.map id (t :: ts) :=
      List.map_congr_left (fun a ha => (hmem a ha).2.1)
    rw [hmap, List.map_id, List.filter_eq_self.mpr]
    intro a ha
    simpa using (hmem a ha).1

theorem normalizeTags_idem (raw : PyStr) :
    normalizeTags (normalizeTags raw) = normalizeTags raw := by
  rw [show normalizeTags raw =
        joinComma (((pySplit raw).map stripPy).filter (fun t => t ≠ [])) from rfl]
  apply normalizeTags_fixed
  intro x hx
  rw [List.mem_filter] at hx
  obtain ⟨hx1, hne⟩ := hx
  obtain ⟨y, hy, hxy⟩ := List.mem_map.mp hx1
  refine ⟨by simpa using hne, by rw [← hxy]; exact stripPy_idem y, ?_⟩
  intro hc
  exact not_comma_mem_pySplit raw y hy (mem_of_mem_stripPy (hxy ▸ hc))

end Cms

namespace Cms

/-! ### Claims C1-C3: the tag codec -/

/-- C1, counterexample: creating a resource with tags `"x, y , ,z"` and
retrieving it does NOT return `"x, y, z"`: the serializer joins with `','`
(no space), so the stored string is `"x,y,z"`. -/
theorem C1_counterexample :
    (getResourceView
        (postResourceView { resources := [], images := [], blobs := [] }
          { title := some "t", description := none, resource_file := none,
            tags := some "x, y , ,z".data } 1 0).db 1).body.map ResourceRec.tags
      ≠ some "x, y, z".data := by decide

/-- C1 (amended): for every tags string supplied on resource create OR
update, the stored tags value is the normalization of the input — split on
comma, trim each segment, drop empty segments, re-join with `","` (comma, NO
space); the empty input yields the empty stored string, and decoding the
stored value gives exactly the trimmed non-empty segments of the input. -/
theorem C1_tags_normalized_on_write (inp : ResourceInput) (raw : PyStr)
    (newId now : Nat) (r : ResourceRec) (h : inp.tags = some raw) :
    (serializerCreate inp newId now).tags
        = joinComma (((pySplit raw).map stripPy).filter (fun t => t ≠ []))
      ∧ (serializerUpdate r inp now).tags
          = joinComma (((pySplit raw).map stripPy).filter (fun t => t ≠ []))
      ∧ (raw = [] → (serializerCreate inp newId now).tags = []
          ∧ (serializerUpdate r inp now).tags = [])
      ∧ get_tags_list (serializerCreate inp newId now).tags
          = ((pySplit raw).map stripPy).filter (fun t => t ≠ [])
      ∧ get_tags_list (serializerUpdate r inp now).tags
          = ((pySplit raw).map stripPy).filter (fun t => t ≠ []) := by
  have hstoreC : (serializerCreate inp newId now).tags = normalizeTags raw := by
    simp [serializerCreate, h]
  have hstoreU : (serializerUpdate r inp now).tags = normalizeTags raw := by
    simp [serializerUpdate, h]
  have hdec : get_tags_list (normalizeTags raw)
      = ((pySplit raw).map stripPy).filter (fun t => t ≠ []) := by
    rw [decode_normalize raw]
    by_cases hraw : raw = []
    · subst hraw; decide
    · rw [get_tags_list, if_neg hraw]
  refine ⟨by rw [hstoreC]; rfl, by rw [hstoreU]; rfl, ?_,
          by rw [hstoreC]; exact hdec, by rw [hstoreU]; exact hdec⟩
  intro hr
  subst hr
  exact ⟨by rw [hstoreC]; decide, by rw [hstoreU]; decide⟩

/-- C1 witness: the round trip at tags `"x, y , ,z"` on both write paths:
the stored string is `"x,y,z"` after create and after update, and its
decoding is `["x","y","z"]`. -/
theorem C1_tags_normalized_on_write_witness :
    (serializerCreate
        { title := some "t", description := none, resource_file := none,
          tags := some "x, y , ,z".data } 1 0).tags = "x,y,z".data
    ∧ (serializerUpdate
        { id := 1, title := "t", description := none, resource_file := none,
          tags := ['o'], created_at := 0, updated_at := 0 }
        { title := some "t", description := none, resource_file := none,
          tags := some "x, y , ,z".data } 0).tags = "x,y,z".data
    ∧ get_tags_list (serializerCreate
        { title := some "t", description := none, resource_file := none,
          tags := some "x, y , ,z".data } 1 0).tags
        = ["x".data, "y".data, "z".data] := by
  have h := C1_tags_normalized_on_write
    { title := some "t", description := none, resource_file := none,
      tags := some "x, y , ,z".data } "x, y , ,z".data 1 0
    { id := 1, title := "t", description := none, resource_file := none,
      tags := ['o'], created_at := 0, updated_at := 0 } rfl
  exact ⟨by rw [h.1]; decide, by rw [h.2.1]; decide, by rw [h.2.2.2.1]; decide⟩

/-- C2, counterexample: `get_tags_list` does not drop empty segments:
decoding `"a, , b,  c "` yields `["a", "", "b", "c"]`, not `["a","b","c"]`. -/
theorem C2_counterexample :
    get_tags_list "a, , b,  c ".data ≠ ["a".data, "b".data, "c".data] := by
  decide

/-- C2 (amended): for every non-empty stored tags string, the decode
operation splits on comma, trims whitespace from each segment, preserves
order and does not deduplicate, but it KEEPS empty segments: the result
always has exactly one entry per comma plus one (only the wholly empty
string decodes to `[]`); in particular
`decode("a, , b,  c ") == ["a", "", "b", "c"]`. -/
theorem C2_get_tags_list_keeps_empty (raw : PyStr) (h : raw ≠ []) :
    get_tags_list raw = (pySplit raw).map stripPy
    ∧ (get_tags_list raw).length = raw.count ',' + 1
    ∧ get_tags_list ([] : PyStr) = []
    ∧ get_tags_list "a, , b,  c ".data = ["a".data, [], "b".data, "c".data] := by
  refine ⟨by rw [get_tags_list, if_neg h], ?_, by decide, by decide⟩
  rw [get_tags_list, if_neg h, List.length_map, pySplit_length]

/-- C2 witness: the amended decode facts evaluated at `"a, , b,  c "`. -/
theorem C2_get_tags_list_keeps_empty_witness :
    (get_tags_list "a, , b,  c ".data).length = "a, , b,  c ".data.count ',' + 1
    ∧ get_tags_list "a, , b,  c ".data = ["a".data, [], "b".data, "c".data] := by
  have h := C2_get_tags_list_keeps_empty "a, , b,  c ".data (by decide)
  exact ⟨h.2.1, h.2.2.2⟩

/-- C3, counterexample: decoding the normalized form is NOT always the same
as decoding the raw string: for `"a, ,b"` the normalized form decodes to
`["a","b"]` while the raw string decodes to `["a","","b"]`. -/
theorem C3_counterexample :
    get_tags_list (normalizeTags "a, ,b".data) ≠ get_tags_list "a, ,b".data := by
  decide

/-- C3 (amended): for every raw tags string, decoding the write-normalized
form returns the decoding of the raw string with its empty segments dropped
(they agree whenever the raw decoding has no empty segment), and
normalization itself is idempotent. -/
theorem C3_decode_of_normalize (raw : PyStr) :
    get_tags_list (normalizeTags raw) = (get_tags_list raw).filter (fun t => t ≠ [])
    ∧ normalizeTags (normalizeTags raw) = normalizeTags raw :=
  ⟨decode_normalize raw, normalizeTags_idem raw⟩

end Cms

namespace Cms

/-! ### Sorting helpers for the list view -/

theorem insertByCreated_perm (r : ResourceRec) (l : List ResourceRec) :
    List.Perm (insertByCreated r l) (r :: l) := by
  induction l with
  | nil => exact List.Perm.refl _
  | cons x xs ih =>
    by_cases h : x.created_at < r.created_at
    · simp [insertByCreated, h]
    · simp only [insertByCreated, h, if_false]
      exact (ih.cons x).trans (List.Perm.swap r x xs)

theorem insertByCreated_pairwise (r : ResourceRec) (l : List ResourceRec)
    (h : l.Pairwise (fun a b => b.created_at ≤ a.created_at)) :
    (insertByCreated r l).Pairwise (fun a b => b.created_at ≤ a.created_at) := by
  induction l with
  | nil => simp [insertByCreated]
  | cons x xs ih =>
    rcases List.pairwise_cons.mp h with ⟨hx, hxs⟩
    by_cases hcmp : x.created_at < r.created_at
    · simp only [insertByCreated, hcmp, if_true]
      refine List.pairwise_cons.mpr ⟨?_, h⟩
      intro b hb
      rcases List.mem_cons.mp hb with rfl | hb'
      · omega
      · have := hx b hb'
        omega
    · simp only [insertByCreated, hcmp, if_false]
      refine List.pairwise_cons.mpr ⟨?_, ih hxs⟩
      intro b hb
      have hb' := (insertByCreated_perm r xs).mem_iff.mp hb
      rcases List.mem_cons.mp hb' with rfl | hb''
      · omega
      · exact hx b hb''

theorem sortByCreated_perm (l : List ResourceRec) :
    List.Perm (l.foldr insertByCreated []) l := by
  induction l with
  | nil => exact List.Perm.refl _
  | cons x xs ih =>
    exact (insertByCreated_perm x (xs.foldr insertByCreated [])).trans (ih.cons x)

theorem sortByCreated_pairwise (l : List ResourceRec) :
    (l.foldr insertByCreated []).Pairwise (fun a b => b.created_at ≤ a.created_at) := by
  induction l with
  | nil => simp
  | cons x xs ih => exact insertByCreated_pairwise x _ ih

/-! ### Claim C4: cascade on resource delete -/

/-- C4, counterexample: deleting a Resource with one image removes the image
row (and answers 204) but does NOT delete the image's blob: the stored file
is still present in media storage afterwards. -/
theorem C4_counterexample :
    (deleteResourceView
        { resources := [{ id := 1, title := "t", description := none,
                          resource_file := none, tags := [], created_at := 0,
                          updated_at := 0 }],
          images := [{ id := 1, resource := 1,
                       image := "resources/1/images/a.png", caption := "",
                       uploaded_at := 0 }],
          blobs := ["resources/1/images/a.png"] } 1).2 = 204
    ∧ (deleteResourceView
        { resources := [{ id := 1, title := "t", description := none,
                          resource_file := none, tags := [], created_at := 0,
                          updated_at := 0 }],
          images := [{ id := 1, resource := 1,
                       image := "resources/1/images/a.png", caption := "",
                       uploaded_at := 0 }],
          blobs := ["resources/1/images/a.png"] } 1).1.images = []
    ∧ "resources/1/images/a.png" ∈
        (deleteResourceView
          { resources := [{ id := 1, title := "t", description := none,
                            resource_file := none, tags := [], created_at := 0,
                            updated_at := 0 }],
            images := [{ id := 1, resource := 1,
                         image := "resources/1/images/a.png", caption := "",
                         uploaded_at := 0 }],
            blobs := ["resources/1/images/a.png"] } 1).1.blobs := by
  decide

/-- C4 (amended): deleting an existing Resource answers 204 and cascades to
delete all of its Image ROWS — none remain, and deleting any prior image id
answers 404 — but the image blobs are NOT removed from storage. -/
theorem C4_cascade_delete (db : DB) (pk : Nat) (r : ResourceRec)
    (hfound : lookupResource db pk = some r)
    (hnodup : (db.images.map ImageRec.id).Nodup) :
    (deleteResourceView db pk).2 = 204
    ∧ (deleteResourceView db pk).1.images.filter (fun i => i.resource = pk) = []
    ∧ (∀ i ∈ db.images, i.resource = pk →
        lookupImage (deleteResourceView db pk).1 i.id = none
        ∧ (deleteImageView (deleteResourceView db pk).1 i.id).2 = 404)
    ∧ (deleteResourceView db pk).1.blobs = db.blobs := by
  have hdel : deleteResourceView db pk =
      ({ db with
         resources := db.resources.filter (fun r => r.id ≠ pk)
         images := db.images.filter (fun i => i.resource ≠ pk) }, 204) := by
    rw [deleteResourceView, hfound]
  refine ⟨by rw [hdel], ?_, ?_, by rw [hdel]⟩
  · rw [hdel]
    rw [List.filter_eq_nil_iff]
    intro a ha
    have h2 := List.of_mem_filter ha
    simp at h2 ⊢
    exact h2
  · intro i hi hires
    have hlook : lookupImage (deleteResourceView db pk).1 i.id = none := by
      rw [hdel]
      rw [lookupImage]
      apply List.find?_eq_none.mpr
      intro x hx hxid
      have hxmem := List.mem_filter.mp hx
      obtain ⟨hx1, hx2⟩ := hxmem
      have hxi : x.id = i.id := by simpa using hxid
      have hxeq : x = i := List.inj_on_of_nodup_map hnodup hx1 hi hxi
      subst hxeq
      simp [hires] at hx2
    exact ⟨hlook, by simp [deleteImageView, hlook]⟩

/-- C4 witness: the amended cascade facts at a store with one resource owning
two images. -/
theorem C4_cascade_delete_witness :
    (deleteResourceView
        { resources := [{ id := 1, title := "t", description := none,
                          resource_file := none, tags := [], created_at := 0,
                          updated_at := 0 }],
          images := [{ id := 1, resource := 1, image := "resources/1/images/a.png",
                       caption := "", uploaded_at := 0 },
                     { id := 2, resource := 1, image := "resources/1/images/b.png",
                       caption := "", uploaded_at := 0 }],
          blobs := ["resources/1/images/a.png", "resources/1/images/b.png"] } 1).2
      = 204
    ∧ (deleteResourceView
        { resources := [{ id := 1, title := "t", description := none,
                          resource_file := none, tags := [], created_at := 0,
                          updated_at := 0 }],
          images := [{ id := 1, resource := 1, image := "resources/1/images/a.png",
                       caption := "", uploaded_at := 0 },
                     { id := 2, resource := 1, image := "resources/1/images/b.png",
                       caption := "", uploaded_at := 0 }],
          blobs := ["resources/1/images/a.png", "resources/1/images/b.png"] } 1).1.blobs
      = ["resources/1/images/a.png", "resources/1/images/b.png"] := by
  have h := C4_cascade_delete
    { resources := [{ id := 1, title := "t", description := none,
                      resource_file := none, tags := [], created_at := 0,
                      updated_at := 0 }],
      images := [{ id := 1, resource := 1, image := "resources/1/images/a.png",
                   caption := "", uploaded_at := 0 },
                 { id := 2, resource := 1, image := "resources/1/images/b.png",
                   caption := "", uploaded_at := 0 }],
      blobs := ["resources/1/images/a.png", "resources/1/images/b.png"] } 1
    { id := 1, title := "t", description := none, resource_file := none,
      tags := [], created_at := 0, updated_at := 0 }
    (by decide) (by decide)
  exact ⟨h.1, h.2.2.2⟩

/-! ### Claim C5: PUT vs PATCH field semantics -/

/-- C5, counterexample: a PUT that supplies only `title` succeeds (it does
not require the other writable fields) and does NOT clear the absent
`description` — the stored value survives the full update. -/
theorem C5_counterexample :
    (putResourceView
        { resources := [{ id := 1, title := "t", description := some "keep",
                          resource_file := none, tags := ['a'], created_at := 0,
                          updated_at := 0 }],
          images := [], blobs := [] } 1
        { title := some "t2", description := none, resource_file := none,
          tags := none } 5).status = 200
    ∧ (putResourceView
        { resources := [{ id := 1, title := "t", description := some "keep",
                          resource_file := none, tags := ['a'], created_at := 0,
                          updated_at := 0 }],
          images := [], blobs := [] } 1
        { title := some "t2", description := none, resource_file := none,
          tags := none } 5).body.map ResourceRec.description ≠ some none := by
  decide

/-- C5 (amended): only `title` is required on PUT (a PUT without it fails
with 400); when a non-blank title is supplied, PUT behaves exactly like
PATCH: absent optional writable fields are left UNCHANGED (not cleared),
supplied ones are written, and PATCH accepts a body without `title`. -/
theorem C5_put_leaves_absent_fields (db : DB) (pk : Nat) (r : ResourceRec)
    (inp : ResourceInput) (t : String) (now : Nat)
    (hfound : lookupResource db pk = some r)
    (htitle : inp.title = some t) (ht : t ≠ "") :
    putResourceView db pk inp now = patchResourceView db pk inp now
    ∧ (putResourceView db pk inp now).status = 200
    ∧ (putResourceView db pk inp now).body = some (serializerUpdate r inp now)
    ∧ (inp.description = none →
        (serializerUpdate r inp now).description = r.description)
    ∧ (inp.tags = none → (serializerUpdate r inp now).tags = r.tags)
    ∧ (inp.resource_file = none →
        (serializerUpdate r inp now).resource_file = r.resource_file)
    ∧ (serializerUpdate r inp now).title = t
    ∧ putResourceView db pk
        { title := none, description := inp.description,
          resource_file := inp.resource_file, tags := inp.tags } now
        = { db := db, status := 400, body := none }
    ∧ (patchResourceView db pk
        { title := none, description := inp.description,
          resource_file := inp.resource_file, tags := inp.tags } now).status
        = 200 := by
  have hval : validateResource false inp = true := by
    simp [validateResource, htitle, ht]
  have hval2 : validateResource true inp = true := by
    simp [validateResource, htitle, ht]
  refine ⟨?_, ?_, ?_, ?_, ?_, ?_, ?_, ?_, ?_⟩
  · simp [putResourceView, patchResourceView, hfound, hval, hval2]
  · simp [putResourceView, hfound, hval]
  · simp [putResourceView, hfound, hval]
  · intro h; simp [serializerUpdate, h]
  · intro h; simp [serializerUpdate, h]
  · intro h; simp [serializerUpdate, h]
  · simp [serializerUpdate, htitle]
  · simp [putResourceView, hfound, validateResource]
  · simp [patchResourceView, hfound, validateResource]

/-- C5 witness: the amended PUT/PATCH facts at a concrete store. -/
theorem C5_put_leaves_absent_fields_witness :
    (putResourceView
        { resources := [{ id := 1, title := "t", description := some "keep",
                          resource_file := none, tags := ['a'], created_at := 0,
                          updated_at := 0 }],
          images := [], blobs := [] } 1
        { title := some "t2", description := none, resource_file := none,
          tags := none } 5).status = 200
    ∧ (putResourceView
        { resources := [{ id := 1, title := "t", description := some "keep",
                          resource_file := none, tags := ['a'], created_at := 0,
                          updated_at := 0 }],
          images := [], blobs := [] } 1
        { title := some "t2", description := none, resource_file := none,
          tags := none } 5).body.map ResourceRec.description
      = some (some "keep") := by
  have h := C5_put_leaves_absent_fields
    { resources := [{ id := 1, title := "t", description := some "keep",
                      resource_file := none, tags := ['a'], created_at := 0,
                      updated_at := 0 }],
      images := [], blobs := [] } 1
    { id := 1, title := "t", description := some "keep", resource_file := none,
      tags := ['a'], created_at := 0, updated_at := 0 }
    { title := some "t2", description := none, resource_file := none,
      tags := none } "t2" 5 (by decide) rfl (by decide)
  refine ⟨h.2.1, ?_⟩
  rw [h.2.2.1]
  decide

end Cms

namespace Cms

/-! ### Claim C6: image upload error handling -/

/-- C6: for every image-upload request, a missing resource id gives 404
regardless of the payload; an existing resource with no image file gives
400; an existing resource with an image file gives 201, with the caption
defaulting to the empty string when absent. -/
theorem C6_upload_image_errors (db : DB) (pk : Nat) (file : Option String)
    (cap : Option String) (p : Option Nat) (newId now : Nat) :
    (lookupResource db pk = none →
        uploadImageView db pk file cap p newId now
          = { db := db, status := 404, body := none })
    ∧ (∀ r, lookupResource db pk = some r → file = none →
        uploadImageView db pk file cap p newId now
          = { db := db, status := 400, body := none })
    ∧ (∀ r f, lookupResource db pk = some r → file = some f →
        (uploadImageView db pk file cap p newId now).status = 201
        ∧ (uploadImageView db pk file cap p newId now).body
            = some { id := newId, resource := pk,
                     image := resource_image_path pk f,
                     caption := cap.getD "", uploaded_at := now }
        ∧ (cap = none → Option.getD cap "" = "")) := by
  refine ⟨?_, ?_, ?_⟩
  · intro h
    simp [uploadImageView, h]
  · intro r h hf
    simp [uploadImageView, h, hf]
  · intro r f h hf
    refine ⟨by simp [uploadImageView, h, hf], by simp [uploadImageView, h, hf], ?_⟩
    intro hc
    subst hc
    rfl

/-- C6 witness: the three branches at concrete stores — 404 on an unknown
resource even with a full payload, 400 on a known resource without an image
file, 201 with empty caption on a known resource with an image file. -/
theorem C6_upload_image_errors_witness :
    (uploadImageView { resources := [], images := [], blobs := [] } 7
        (some "a.png") (some "cap") (some 3) 1 0).status = 404
    ∧ (uploadImageView
        { resources := [{ id := 1, title := "t", description := none,
                          resource_file := none, tags := [], created_at := 0,
                          updated_at := 0 }],
          images := [], blobs := [] } 1 none none none 1 0).status = 400
    ∧ (uploadImageView
        { resources := [{ id := 1, title := "t", description := none,
                          resource_file := none, tags := [], created_at := 0,
                          updated_at := 0 }],
          images := [], blobs := [] } 1 (some "a.png") none none 2 5).status = 201
    ∧ (uploadImageView
        { resources := [{ id := 1, title := "t", description := none,
                          resource_file := none, tags := [], created_at := 0,
                          updated_at := 0 }],
          images := [], blobs := [] } 1 (some "a.png") none none 2 5).body.map
        ImageRec.caption = some "" := by
  have h404 := (C6_upload_image_errors
    { resources := [], images := [], blobs := [] } 7 (some "a.png") (some "cap")
    (some 3) 1 0).1 (by decide)
  have h400 := (C6_upload_image_errors
    { resources := [{ id := 1, title := "t", description := none,
                      resource_file := none, tags := [], created_at := 0,
                      updated_at := 0 }],
      images := [], blobs := [] } 1 none none none 1 0).2.1
    { id := 1, title := "t", description := none, resource_file := none,
      tags := [], created_at := 0, updated_at := 0 } (by decide) rfl
  have h201 := (C6_upload_image_errors
    { resources := [{ id := 1, title := "t", description := none,
                      resource_file := none, tags := [], created_at := 0,
                      updated_at := 0 }],
      images := [], blobs := [] } 1 (some "a.png") none none 2 5).2.2
    { id := 1, title := "t", description := none, resource_file := none,
      tags := [], created_at := 0, updated_at := 0 } "a.png" (by decide) rfl
  refine ⟨by rw [h404], by rw [h400], h201.1, ?_⟩
  rw [h201.2.1]
  rfl

/-! ### Claim C7: PATCH single-field frame property -/

/-- C7: for every existing Resource, a PATCH supplying only `description`
answers 200 and leaves title, tags, resource_file and created_at unchanged,
stores the supplied description, and moves `updated_at` strictly forward
(the clock reading at the save is later than the stored one). -/
theorem C7_patch_single_field_frame (db : DB) (pk : Nat) (r : ResourceRec)
    (d : Option String) (now : Nat)
    (hfound : lookupResource db pk = some r)
    (hclock : r.updated_at < now) :
    ∃ r', patchResourceView db pk
        { title := none, description := some d, resource_file := none,
          tags := none } now
        = { db := saveResource db r', status := 200, body := some r' }
      ∧ r'.title = r.title
      ∧ r'.tags = r.tags
      ∧ r'.resource_file = r.resource_file
      ∧ r'.created_at = r.created_at
      ∧ r'.description = d
      ∧ r'.updated_at = now
      ∧ r.updated_at < r'.updated_at := by
  refine ⟨serializerUpdate r
    { title := none, description := some d, resource_file := none,
      tags := none } now, ?_, ?_, ?_, ?_, ?_, ?_, ?_, ?_⟩
  · simp [patchResourceView, hfound, validateResource, blobsAfterFileWrite,
          saveResource]
  · simp [serializerUpdate]
  · simp [serializerUpdate]
  · simp [serializerUpdate]
  · simp [serializerUpdate]
  · simp [serializerUpdate]
  · simp [serializerUpdate]
  · simpa [serializerUpdate] using hclock

/-- C7 witness: the frame facts at a concrete store and clock 7 > 0. -/
theorem C7_patch_single_field_frame_witness :
    (patchResourceView
        { resources := [{ id := 1, title := "t", description := some "old",
                          resource_file := some "f.txt", tags := ['a'],
                          created_at := 0, updated_at := 0 }],
          images := [], blobs := [] } 1
        { title := none, description := some (some "new"), resource_file := none,
          tags := none } 7).status = 200
    ∧ (patchResourceView
        { resources := [{ id := 1, title := "t", description := some "old",
                          resource_file := some "f.txt", tags := ['a'],
                          created_at := 0, updated_at := 0 }],
          images := [], blobs := [] } 1
        { title := none, description := some (some "new"), resource_file := none,
          tags := none } 7).body.map ResourceRec.title = some "t"
    ∧ (patchResourceView
        { resources := [{ id := 1, title := "t", description := some "old",
                          resource_file := some "f.txt", tags := ['a'],
                          created_at := 0, updated_at := 0 }],
          images := [], blobs := [] } 1
        { title := none, description := some (some "new"), resource_file := none,
          tags := none } 7).body.map ResourceRec.description = some (some "new")
    ∧ (patchResourceView
        { resources := [{ id := 1, title := "t", description := some "old",
                          resource_file := some "f.txt", tags := ['a'],
                          created_at := 0, updated_at := 0 }],
          images := [], blobs := [] } 1
        { title := none, description := some (some "new"), resource_file := none,
          tags := none } 7).body.map ResourceRec.updated_at = some 7 := by
  obtain ⟨r', heq, h1, h2, h3, h4, h5, h6, h7⟩ := C7_patch_single_field_frame
    { resources := [{ id := 1, title := "t", description := some "old",
                      resource_file := some "f.txt", tags := ['a'],
                      created_at := 0, updated_at := 0 }],
      images := [], blobs := [] } 1
    { id := 1, title := "t", description := some "old",
      resource_file := some "f.txt", tags := ['a'], created_at := 0,
      updated_at := 0 }
    (some "new") 7 (by decide) (by decide)
  rw [heq]
  exact ⟨rfl, by simp [h1], by simp [h5], by simp [h6]⟩

end Cms

namespace Cms

/-! ### Claim C8: list ordering -/

/-- C8: the list endpoint returns all stored Resources (a permutation of the
table) ordered by creation time descending; in particular after creating R1
at t=1 and then R2 at t=2 it returns [R2, R1]. -/
theorem C8_list_ordering (db : DB) :
    (listResourcesView db).Pairwise (fun a b => b.created_at ≤ a.created_at)
    ∧ List.Perm (listResourcesView db) db.resources
    ∧ listResourcesView
        (postResourceView
          (postResourceView { resources := [], images := [], blobs := [] }
            { title := some "R1", description := none, resource_file := none,
              tags := none } 1 1).db
          { title := some "R2", description := none, resource_file := none,
            tags := none } 2 2).db
      = [{ id := 2, title := "R2", description := none, resource_file := none,
           tags := [], created_at := 2, updated_at := 2 },
         { id := 1, title := "R1", description := none, resource_file := none,
           tags := [], created_at := 1, updated_at := 1 }] :=
  ⟨sortByCreated_pairwise db.resources, sortByCreated_perm db.resources, by decide⟩

/-! ### Claim C9: the payload resource field is ignored on image upload -/

/-- C9: the owner of an uploaded image is determined solely by the resource
id in the URL path — two requests differing only in a `resource` field of
the payload produce identical results, and on success the created image's
owner is the path id. -/
theorem C9_payload_resource_ignored (db : DB) (pk : Nat) (file : Option String)
    (cap : Option String) (p1 p2 : Option Nat) (newId now : Nat) :
    uploadImageView db pk file cap p1 newId now
      = uploadImageView db pk file cap p2 newId now
    ∧ (∀ img, (uploadImageView db pk file cap p1 newId now).body = some img →
        img.resource = pk) := by
  refine ⟨rfl, ?_⟩
  intro img h
  cases hl : lookupResource db pk with
  | none => simp [uploadImageView, hl] at h
  | some r =>
    cases file with
    | none => simp [uploadImageView, hl] at h
    | some f =>
      simp [uploadImageView, hl] at h
      subst h
      rfl

/-- C9 witness: two uploads differing only in the payload `resource` field
(99 vs 42) at a concrete store agree, and the theorem applied to the
concretely created image shows its owner is the path id 1. -/
theorem C9_payload_resource_ignored_witness :
    uploadImageView
        { resources := [{ id := 1, title := "t", description := none,
                          resource_file := none, tags := [], created_at := 0,
                          updated_at := 0 }],
          images := [], blobs := [] } 1 (some "a.png") none (some 99) 2 5
      = uploadImageView
        { resources := [{ id := 1, title := "t", description := none,
                          resource_file := none, tags := [], created_at := 0,
                          updated_at := 0 }],
          images := [], blobs := [] } 1 (some "a.png") none (some 42) 2 5
    ∧ ({ id := 2, resource := 1, image := resource_image_path 1 "a.png",
         caption := "", uploaded_at := 5 } : ImageRec).resource = 1 := by
  have h := C9_payload_resource_ignored
    { resources := [{ id := 1, title := "t", description := none,
                      resource_file := none, tags := [], created_at := 0,
                      updated_at := 0 }],
      images := [], blobs := [] } 1 (some "a.png") none (some 99) (some 42) 2 5
  exact ⟨h.1,
    h.2 { id := 2, resource := 1, image := resource_image_path 1 "a.png",
          caption := "", uploaded_at := 5 } (by decide)⟩

/-! ### Claim C10: derived absolute URL fields -/

/-- C10: the serializer URL fields are `none` whenever no request context is
available (even with a stored blob reference) and whenever no blob reference
is stored; with both present, the URL is the request's absolute URI of the
stored blob's media path. -/
theorem C10_url_fields (fileRef : Option String) (request : Option String)
    (name base : String) :
    get_image_url fileRef none = none
    ∧ get_resource_file_url fileRef none = none
    ∧ get_image_url none request = none
    ∧ get_resource_file_url none request = none
    ∧ get_image_url (some name) (some base)
        = some (build_absolute_uri base (MEDIA_URL ++ name))
    ∧ get_resource_file_url (some name) (some base)
        = some (build_absolute_uri base (MEDIA_URL ++ name)) := by
  refine ⟨?_, ?_, ?_, ?_, rfl, rfl⟩
  · cases fileRef <;> rfl
  · cases fileRef <;> rfl
  · cases request <;> rfl
  · cases request <;> rfl

end Cms
